import Mathlib

/-!
Shallow embedding of `src/models.py`: a pydantic model hierarchy
`BaseUser` → `User` → `AdminUser` with whitespace stripping on string
fields (`str_strip_whitespace=True`), re-validation on assignment
(`validate_assignment=True`), name normalization, password strength
rules, an age lower bound, a closed role enumeration and a role-based
permission query.

Python builtin character operations (`str.strip`, `str.lower`,
`str.capitalize`, `str.isdigit`) are modelled faithfully on a modelled
alphabet: ASCII without the FS/GS/RS/US control characters (0x1C-0x1F,
where CPython and pydantic-core disagree about what counts as
whitespace) together with the Russian Cyrillic letters U+0410-U+044F
and Ё/ё (U+0401/U+0451).  `modelledChar` makes the alphabet explicit;
universally quantified theorems that depend on builtin character
semantics carry a `ModelledStr` hypothesis.
-/

deriving instance DecidableEq for Except

namespace UserModels

/-- Python whitespace for `str.strip`, restricted to the modelled alphabet:
tab, LF, VT, FF, CR and space.  (On this alphabet CPython's `str.strip` and
pydantic-core's trimming agree.) -/
def pyIsSpace (c : Char) : Bool :=
  c.toNat = 9 || c.toNat = 10 || c.toNat = 11 || c.toNat = 12 ||
    c.toNat = 13 || c.toNat = 32

/-- Python `str.isdigit` restricted to the modelled alphabet: the ASCII
decimal digits (no character of the modelled alphabet outside 0-9 is a
Python digit). -/
def pyIsDigit (c : Char) : Bool :=
  48 ≤ c.toNat && c.toNat ≤ 57

/-- Python `str.lower`, character-wise, restricted to the modelled alphabet:
A-Z, the Cyrillic capitals А-Я (U+0410-U+042F) and Ё (U+0401) map to their
lowercase partners; everything else is fixed. -/
def pyToLower (c : Char) : Char :=
  if 65 ≤ c.toNat ∧ c.toNat ≤ 90 then Char.ofNat (c.toNat + 32)
  else if 1040 ≤ c.toNat ∧ c.toNat ≤ 1071 then Char.ofNat (c.toNat + 32)
  else if c.toNat = 1025 then Char.ofNat 1105
  else c

/-- Python uppercasing (as used by `str.capitalize` on the first character),
restricted to the modelled alphabet: a-z, the Cyrillic lowercase letters
а-я (U+0430-U+044F) and ё (U+0451) map to their uppercase partners. -/
def pyToUpper (c : Char) : Char :=
  if 97 ≤ c.toNat ∧ c.toNat ≤ 122 then Char.ofNat (c.toNat - 32)
  else if 1072 ≤ c.toNat ∧ c.toNat ≤ 1103 then Char.ofNat (c.toNat - 32)
  else if c.toNat = 1105 then Char.ofNat 1025
  else c

/-- The alphabet on which the character model above agrees with CPython and
pydantic-core: ASCII minus 0x1C-0x1F, plus Cyrillic А-я and Ё/ё. -/
def modelledChar (c : Char) : Bool :=
  (c.toNat < 128 && !(28 ≤ c.toNat && c.toNat ≤ 31)) ||
    (1040 ≤ c.toNat && c.toNat ≤ 1103) || c.toNat = 1025 || c.toNat = 1105

/-- A string entirely over the modelled alphabet. -/
def ModelledStr (s : String) : Prop := ∀ c ∈ s.data, modelledChar c = true

instance (s : String) : Decidable (ModelledStr s) := by
  unfold ModelledStr
  infer_instance

/-- Python `str.strip` (also pydantic's `str_strip_whitespace`): drop
whitespace from both ends. -/
def stripList (l : List Char) : List Char :=
  (l.dropWhile pyIsSpace).rdropWhile pyIsSpace

/-- `str.strip` on strings. -/
def pyStrip (s : String) : String := ⟨stripList s.data⟩

/-- Python `str.lower` on strings (character-wise on the modelled alphabet,
where no case mapping changes string length). -/
def pyLower (s : String) : String := ⟨s.data.map pyToLower⟩

/-- Python `str.capitalize`: first character uppercased, the rest
lowercased. -/
def pyCapitalize (s : String) : String :=
  match s.data with
  | [] => ""
  | c :: rest => ⟨pyToUpper c :: rest.map pyToLower⟩

/-- The form of a stored name as the spec words it: "the whole string
lower-cased with only its first character upper-cased".  Used to compare the
code's `s.lower().capitalize()` against the spec's description. -/
def firstUpperRestLower (s : String) : String :=
  match (pyLower s).data with
  | [] => ""
  | c :: rest => ⟨pyToUpper c :: rest⟩

/-- A raw field value handed to validation, as in Python: a string, an
integer, or something of any other type (`null`). -/
inductive Value where
  | str (s : String)
  | int (n : Int)
  | null
deriving DecidableEq

/-- Validation failure: pydantic distinguishes type errors from value
errors, and every failure carries a message. -/
inductive Err where
  | typeError (msg : String)
  | valueError (msg : String)
deriving DecidableEq

/-- `SPECIALS = set("!@#$%^&*")` from `src/models.py`. -/
def SPECIALS : List Char := ['!', '@', '#', '$', '%', '^', '&', '*']

/-- `BaseUser.normalize_name` from `src/models.py` (a `mode="before"`
validator, so it receives the raw value): reject non-strings, strip,
reject empty, return `s.lower().capitalize()`. -/
def normalize_name (v : Value) : Except Err String :=
  match v with
  | .str v =>
      let s := pyStrip v
      if s = "" then .error (.valueError "Name must not be empty")
      else .ok (pyCapitalize (pyLower s))
  | _ => .error (.typeError "Name must be a string")

/-- The full validation pipeline of the `password` field of `User`:
pydantic first requires a string, strips it (`str_strip_whitespace=True`),
checks `Field(min_length=8)`, and only then runs
`User.validate_password_strength` from `src/models.py` (whose own
`len < 8` branch is therefore unreachable but kept for fidelity). -/
def validate_password (v : Value) : Except Err String :=
  match v with
  | .str raw =>
      let s := pyStrip raw
      if s.length < 8 then
        .error (.valueError "String should have at least 8 characters")
      else if s.length < 8 then
        .error (.valueError "Password must be at least 8 characters")
      else if !s.data.any pyIsDigit then
        .error (.valueError "Password must contain at least one digit")
      else if !s.data.any (fun c => SPECIALS.contains c) then
        .error (.valueError "Password must contain at least one special char")
      else .ok s
  | _ => .error (.typeError "Input should be a valid string")

/-- pydantic's lax string-to-integer coercion, modelled on its documented
behaviour (and verified against pydantic 2.10.6) for plain optionally-signed
decimal strings: the string is trimmed and parsed as a decimal integer.
Other coercible spellings pydantic also accepts (underscore separators such
as "2_5", integral float strings such as "25.0") are outside this modelled
fragment and map to `none` here. -/
def laxStrToInt (s : String) : Option Int :=
  match (pyStrip s).data with
  | [] => Option.none
  | c :: rest =>
      let digits := if c = '+' || c = '-' then rest else c :: rest
      if digits.isEmpty || !digits.all pyIsDigit then Option.none
      else
        let n : Nat := digits.foldl (fun acc d => acc * 10 + (d.toNat - 48)) 0
        Option.some (if c = '-' then -(n : Int) else (n : Int))

/-- The validation pipeline of the `age` field of `User`
(`age: int = Field(ge=18)`): pydantic lax mode accepts integers and
coerces integer-valued strings (verified against pydantic 2.10.6), then
checks the `ge=18` bound; other values are rejected. -/
def validate_age (v : Value) : Except Err Int :=
  match v with
  | .int n =>
      if 18 ≤ n then .ok n
      else .error (.valueError "Input should be greater than or equal to 18")
  | .str s =>
      match laxStrToInt s with
      | Option.some n =>
          if 18 ≤ n then .ok n
          else .error (.valueError "Input should be greater than or equal to 18")
      | Option.none =>
          .error (.valueError "Input should be a valid integer, unable to parse string as an integer")
  | .null => .error (.typeError "Input should be a valid integer")

/-- Split a character list at every occurrence of `sep` (the semantics of
Python `str.split(sep)`): `splitAtChar sep l` always returns one more part
than there are occurrences of `sep` in `l`. -/
def splitAtChar (sep : Char) : List Char → List (List Char)
  | [] => [[]]
  | c :: rest =>
      match splitAtChar sep rest with
      | [] => [[]]
      | h :: t => if c = sep then [] :: h :: t else (c :: h) :: t

/-- An allowed character of the local part of an email address. -/
def emailLocalChar (c : Char) : Bool :=
  c.isAlphanum || c = '.' || c = '_' || c = '%' || c = '+' || c = '-'

/-- An allowed character of the domain part of an email address. -/
def emailDomainChar (c : Char) : Bool :=
  c.isAlphanum || c = '.' || c = '-'

/-- Modelled from the spec: the `EmailStr` field is validated by the
third-party `email-validator` library, whose code is not under `src/`.
Per the spec, the value "must match standard email-address grammar
(`local@domain`, domain contains at least one dot, neither local nor
domain part empty, no invalid characters)". -/
def emailOk (s : String) : Bool :=
  match splitAtChar '@' s.data with
  | [l, d] =>
      !l.isEmpty && !d.isEmpty && d.contains '.' &&
        l.all emailLocalChar && d.all emailDomainChar
  | _ => false

/-- Modelled from the spec: the validation pipeline of the `email` field
(`email: EmailStr`), whose deciding code (pydantic / `email-validator`) is
not under `src/`.  Per the spec: whitespace is trimmed, the grammar of
`emailOk` is checked, and "no normalization applied to email beyond
whitespace trimming". -/
def validate_email (v : Value) : Except Err String :=
  match v with
  | .str raw =>
      let s := pyStrip raw
      if emailOk s then .ok s
      else .error (.valueError "value is not a valid email address")
  | _ => .error (.typeError "Input should be a valid string")

/-- The validation of the `role` field of `AdminUser`
(`role: Literal["admin", "superadmin"]`): exactly these two strings are
accepted (pydantic does not strip `Literal` fields; verified against
pydantic 2.10.6). -/
def validate_role (v : Value) : Except Err String :=
  match v with
  | .str s =>
      if s = "admin" ∨ s = "superadmin" then .ok s
      else .error (.valueError "Input should be admin or superadmin")
  | _ => .error (.valueError "Input should be admin or superadmin")

/-- `BaseUser` record: email plus the two name fields. -/
structure BaseUser where
  email : String
  first_name : String
  last_name : String
deriving DecidableEq

/-- `User` record: `BaseUser` plus password and age. -/
structure User extends BaseUser where
  password : String
  age : Int
deriving DecidableEq

/-- `AdminUser` record: `User` plus a role. -/
structure AdminUser extends User where
  role : String
deriving DecidableEq

/-- Construction of a `BaseUser`: every field is validated (declaration
order: email, first_name, last_name); any failure aborts construction and
no record is produced. -/
def mkBaseUser (email first_name last_name : Value) : Except Err BaseUser := do
  let e ← validate_email email
  let f ← normalize_name first_name
  let l ← normalize_name last_name
  return { email := e, first_name := f, last_name := l }

/-- Construction of a `User`: the `BaseUser` fields plus password and age. -/
def mkUser (email first_name last_name password age : Value) : Except Err User := do
  let b ← mkBaseUser email first_name last_name
  let p ← validate_password password
  let a ← validate_age age
  return { toBaseUser := b, password := p, age := a }

/-- Construction of an `AdminUser`: the `User` fields plus the role. -/
def mkAdminUser (email first_name last_name password age role : Value) :
    Except Err AdminUser := do
  let u ← mkUser email first_name last_name password age
  let r ← validate_role role
  return { toUser := u, role := r }

/-- `AdminUser.ADMIN_PERMISSIONS` from `src/models.py`. -/
def ADMIN_PERMISSIONS : List String :=
  ["read", "write", "delete", "view_reports", "manage_users"]

/-- `AdminUser.has_permission` from `src/models.py`. -/
def has_permission (a : AdminUser) (permission : String) : Bool :=
  if a.role = "superadmin" then true
  else ADMIN_PERMISSIONS.contains permission

/-- A single-field reassignment request on a `User`. -/
inductive FieldUpdate where
  | email (v : Value)
  | first_name (v : Value)
  | last_name (v : Value)
  | password (v : Value)
  | age (v : Value)

/-- Assignment with `validate_assignment=True`: the assigned raw value goes
through exactly the construction-time pipeline of its field; on success the
field is replaced. -/
def applyUpdate (u : User) : FieldUpdate → Except Err User
  | .email v => (validate_email v).map fun e => { u with email := e }
  | .first_name v => (normalize_name v).map fun s => { u with first_name := s }
  | .last_name v => (normalize_name v).map fun s => { u with last_name := s }
  | .password v => (validate_password v).map fun p => { u with password := p }
  | .age v => (validate_age v).map fun a => { u with age := a }

/-- A single-field reassignment request on an `AdminUser`. -/
inductive AdminFieldUpdate where
  | base (f : FieldUpdate)
  | role (v : Value)

/-- Assignment on an `AdminUser`. -/
def applyAdminUpdate (a : AdminUser) : AdminFieldUpdate → Except Err AdminUser
  | .base f => (applyUpdate a.toUser f).map fun u => { a with toUser := u }
  | .role v => (validate_role v).map fun r => { a with role := r }

/-- The observable outcome of an attempted assignment, with pydantic's
validate-then-set discipline (verified against pydantic 2.10.6): on
validation failure the target record is left untouched and the error is
reported. -/
def attemptUpdate (u : User) (f : FieldUpdate) : User × Option Err :=
  match applyUpdate u f with
  | .ok u2 => (u2, Option.none)
  | .error e => (u, Option.some e)

/-- The `User` records observable after a successful construction followed
by any sequence of successful field reassignments. -/
inductive ReachableUser : User → Prop where
  | constructed (e f l p a : Value) (u : User) :
      mkUser e f l p a = .ok u → ReachableUser u
  | assigned (u : User) (f : FieldUpdate) (u2 : User) :
      ReachableUser u → applyUpdate u f = .ok u2 → ReachableUser u2

/-- The `AdminUser` records observable after a successful construction
followed by any sequence of successful field reassignments. -/
inductive ReachableAdmin : AdminUser → Prop where
  | constructed (e f l p a r : Value) (x : AdminUser) :
      mkAdminUser e f l p a r = .ok x → ReachableAdmin x
  | assigned (x : AdminUser) (f : AdminFieldUpdate) (x2 : AdminUser) :
      ReachableAdmin x → applyAdminUpdate x f = .ok x2 → ReachableAdmin x2

/-- A stored name field is valid: non-empty after trimming, and a fixed
point of the normalization pipeline (i.e. stored in normalized form). -/
def NameOk (s : String) : Prop :=
  pyStrip s ≠ "" ∧ normalize_name (.str s) = .ok s

/-- A stored password is valid: length at least 8, at least one digit, at
least one character of `SPECIALS`. -/
def PasswordOk (s : String) : Prop :=
  8 ≤ s.length ∧ s.data.any pyIsDigit = true ∧
    s.data.any (fun c => SPECIALS.contains c) = true

/-- The field constraints of a `User` record. -/
def UserInv (u : User) : Prop :=
  NameOk u.first_name ∧ NameOk u.last_name ∧ PasswordOk u.password ∧ 18 ≤ u.age

/-- The field constraints of an `AdminUser` record. -/
def AdminInv (x : AdminUser) : Prop :=
  UserInv x.toUser ∧ (x.role = "admin" ∨ x.role = "superadmin")



theorem toNat_ofNat_lt (n : Nat) (h : n < 55296) : (Char.ofNat n).toNat = n := by
  rw [Char.ofNat, dif_pos (Or.inl h)]
  rfl

theorem pyToLower_eq_self (c : Char)
    (h1 : ¬(65 ≤ c.toNat ∧ c.toNat ≤ 90))
    (h2 : ¬(1040 ≤ c.toNat ∧ c.toNat ≤ 1071))
    (h3 : ¬c.toNat = 1025) : pyToLower c = c := by
  unfold pyToLower
  rw [if_neg h1, if_neg h2, if_neg h3]

theorem pyToUpper_eq_self (c : Char)
    (h1 : ¬(97 ≤ c.toNat ∧ c.toNat ≤ 122))
    (h2 : ¬(1072 ≤ c.toNat ∧ c.toNat ≤ 1103))
    (h3 : ¬c.toNat = 1105) : pyToUpper c = c := by
  unfold pyToUpper
  rw [if_neg h1, if_neg h2, if_neg h3]

theorem pyToLower_upperAscii (c : Char) (h : 65 ≤ c.toNat ∧ c.toNat ≤ 90) :
    pyToLower c = Char.ofNat (c.toNat + 32) := by
  unfold pyToLower
  rw [if_pos h]

theorem pyToLower_upperCyr (c : Char) (h1 : ¬(65 ≤ c.toNat ∧ c.toNat ≤ 90))
    (h : 1040 ≤ c.toNat ∧ c.toNat ≤ 1071) :
    pyToLower c = Char.ofNat (c.toNat + 32) := by
  unfold pyToLower
  rw [if_neg h1, if_pos h]

theorem pyToLower_yo (c : Char) (h : c.toNat = 1025) :
    pyToLower c = Char.ofNat 1105 := by
  unfold pyToLower
  rw [if_neg (by omega), if_neg (by omega), if_pos h]

theorem pyToUpper_lowerAscii (c : Char) (h : 97 ≤ c.toNat ∧ c.toNat ≤ 122) :
    pyToUpper c = Char.ofNat (c.toNat - 32) := by
  unfold pyToUpper
  rw [if_pos h]

theorem pyToUpper_lowerCyr (c : Char) (h1 : ¬(97 ≤ c.toNat ∧ c.toNat ≤ 122))
    (h : 1072 ≤ c.toNat ∧ c.toNat ≤ 1103) :
    pyToUpper c = Char.ofNat (c.toNat - 32) := by
  unfold pyToUpper
  rw [if_neg h1, if_pos h]

theorem pyToUpper_yo (c : Char) (h : c.toNat = 1105) :
    pyToUpper c = Char.ofNat 1025 := by
  unfold pyToUpper
  rw [if_neg (by omega), if_neg (by omega), if_pos h]

theorem toLower_toLower (c : Char) : pyToLower (pyToLower c) = pyToLower c := by
  by_cases h1 : 65 ≤ c.toNat ∧ c.toNat ≤ 90
  · rw [pyToLower_upperAscii c h1]
    have ht : (Char.ofNat (c.toNat + 32)).toNat = c.toNat + 32 :=
      toNat_ofNat_lt _ (by omega)
    exact pyToLower_eq_self _ (by rw [ht]; omega) (by rw [ht]; omega) (by rw [ht]; omega)
  · by_cases h2 : 1040 ≤ c.toNat ∧ c.toNat ≤ 1071
    · rw [pyToLower_upperCyr c h1 h2]
      have ht : (Char.ofNat (c.toNat + 32)).toNat = c.toNat + 32 :=
        toNat_ofNat_lt _ (by omega)
      exact pyToLower_eq_self _ (by rw [ht]; omega) (by rw [ht]; omega) (by rw [ht]; omega)
    · by_cases h3 : c.toNat = 1025
      · rw [pyToLower_yo c h3]
        have ht : (Char.ofNat 1105).toNat = 1105 := toNat_ofNat_lt _ (by omega)
        exact pyToLower_eq_self _ (by rw [ht]; omega) (by rw [ht]; omega) (by rw [ht]; omega)
      · rw [pyToLower_eq_self c h1 h2 h3, pyToLower_eq_self c h1 h2 h3]

theorem toLower_toUpper_toLower (c : Char) :
    pyToLower (pyToUpper (pyToLower c)) = pyToLower c := by
  by_cases h1 : 65 ≤ c.toNat ∧ c.toNat ≤ 90
  · rw [pyToLower_upperAscii c h1]
    have ht : (Char.ofNat (c.toNat + 32)).toNat = c.toNat + 32 :=
      toNat_ofNat_lt _ (by omega)
    rw [pyToUpper_lowerAscii _ (by rw [ht]; omega), ht]
    have he : c.toNat + 32 - 32 = c.toNat := by omega
    rw [he, Char.ofNat_toNat, pyToLower_upperAscii c h1]
  · by_cases h2 : 1040 ≤ c.toNat ∧ c.toNat ≤ 1071
    · rw [pyToLower_upperCyr c h1 h2]
      have ht : (Char.ofNat (c.toNat + 32)).toNat = c.toNat + 32 :=
        toNat_ofNat_lt _ (by omega)
      rw [pyToUpper_lowerCyr _ (by rw [ht]; omega) (by rw [ht]; omega), ht]
      have he : c.toNat + 32 - 32 = c.toNat := by omega
      rw [he, Char.ofNat_toNat, pyToLower_upperCyr c h1 h2]
    · by_cases h3 : c.toNat = 1025
      · rw [pyToLower_yo c h3]
        have ht : (Char.ofNat 1105).toNat = 1105 := toNat_ofNat_lt _ (by omega)
        rw [pyToUpper_yo _ ht]
        have hc : Char.ofNat 1025 = c := by rw [← h3, Char.ofNat_toNat]
        rw [hc, pyToLower_yo c h3]
      · rw [pyToLower_eq_self c h1 h2 h3]
        by_cases k1 : 97 ≤ c.toNat ∧ c.toNat ≤ 122
        · rw [pyToUpper_lowerAscii c k1]
          have ht : (Char.ofNat (c.toNat - 32)).toNat = c.toNat - 32 :=
            toNat_ofNat_lt _ (by omega)
          rw [pyToLower_upperAscii _ (by rw [ht]; omega), ht]
          have he : c.toNat - 32 + 32 = c.toNat := by omega
          rw [he, Char.ofNat_toNat]
        · by_cases k2 : 1072 ≤ c.toNat ∧ c.toNat ≤ 1103
          · rw [pyToUpper_lowerCyr c k1 k2]
            have ht : (Char.ofNat (c.toNat - 32)).toNat = c.toNat - 32 :=
              toNat_ofNat_lt _ (by omega)
            rw [pyToLower_upperCyr _ (by rw [ht]; omega) (by rw [ht]; omega), ht]
            have he : c.toNat - 32 + 32 = c.toNat := by omega
            rw [he, Char.ofNat_toNat]
          · by_cases k3 : c.toNat = 1105
            · rw [pyToUpper_yo c k3]
              have ht : (Char.ofNat 1025).toNat = 1025 := toNat_ofNat_lt _ (by omega)
              rw [pyToLower_yo _ ht]
              rw [← k3, Char.ofNat_toNat]
            · rw [pyToUpper_eq_self c k1 k2 k3, pyToLower_eq_self c h1 h2 h3]

theorem pyIsSpace_eq_decide (c : Char) :
    pyIsSpace c = decide (c.toNat = 9 ∨ c.toNat = 10 ∨ c.toNat = 11 ∨
      c.toNat = 12 ∨ c.toNat = 13 ∨ c.toNat = 32) := by
  simp [pyIsSpace, Bool.or_assoc]

theorem isSpace_toLower (c : Char) : pyIsSpace (pyToLower c) = pyIsSpace c := by
  by_cases h1 : 65 ≤ c.toNat ∧ c.toNat ≤ 90
  · rw [pyToLower_upperAscii c h1, pyIsSpace_eq_decide, pyIsSpace_eq_decide,
      toNat_ofNat_lt _ (by omega)]
    exact decide_eq_decide.mpr (by omega)
  · by_cases h2 : 1040 ≤ c.toNat ∧ c.toNat ≤ 1071
    · rw [pyToLower_upperCyr c h1 h2, pyIsSpace_eq_decide, pyIsSpace_eq_decide,
        toNat_ofNat_lt _ (by omega)]
      exact decide_eq_decide.mpr (by omega)
    · by_cases h3 : c.toNat = 1025
      · rw [pyToLower_yo c h3, pyIsSpace_eq_decide, pyIsSpace_eq_decide,
          toNat_ofNat_lt _ (by omega)]
        exact decide_eq_decide.mpr (by omega)
      · rw [pyToLower_eq_self c h1 h2 h3]

theorem isSpace_toUpper (c : Char) : pyIsSpace (pyToUpper c) = pyIsSpace c := by
  by_cases h1 : 97 ≤ c.toNat ∧ c.toNat ≤ 122
  · rw [pyToUpper_lowerAscii c h1, pyIsSpace_eq_decide, pyIsSpace_eq_decide,
      toNat_ofNat_lt _ (by omega)]
    exact decide_eq_decide.mpr (by omega)
  · by_cases h2 : 1072 ≤ c.toNat ∧ c.toNat ≤ 1103
    · rw [pyToUpper_lowerCyr c h1 h2, pyIsSpace_eq_decide, pyIsSpace_eq_decide,
        toNat_ofNat_lt _ (by omega)]
      exact decide_eq_decide.mpr (by omega)
    · by_cases h3 : c.toNat = 1105
      · rw [pyToUpper_yo c h3, pyIsSpace_eq_decide, pyIsSpace_eq_decide,
          toNat_ofNat_lt _ (by omega)]
        exact decide_eq_decide.mpr (by omega)
      · rw [pyToUpper_eq_self c h1 h2 h3]


theorem map_toLower_idem (l : List Char) :
    (l.map pyToLower).map pyToLower = l.map pyToLower := by
  rw [List.map_map]
  exact List.map_congr_left fun a _ => toLower_toLower a

theorem dropWhile_head_not_space (l : List Char) (c : Char) (r : List Char)
    (h : l.dropWhile pyIsSpace = c :: r) : pyIsSpace c = false := by
  have hh := List.head?_dropWhile_not pyIsSpace l
  rw [h] at hh
  simpa using hh

theorem stripList_head_not_space (l : List Char) (c : Char) (r : List Char)
    (h : stripList l = c :: r) : pyIsSpace c = false := by
  obtain ⟨t, ht⟩ := List.rdropWhile_prefix pyIsSpace (l.dropWhile pyIsSpace)
  rw [show (l.dropWhile pyIsSpace).rdropWhile pyIsSpace = stripList l from rfl, h] at ht
  exact dropWhile_head_not_space l c (r ++ t) (by rw [← ht]; simp)

theorem stripList_getLast_not_space (l : List Char) :
    ∀ x, (stripList l).getLast? = some x → pyIsSpace x = false := by
  intro x hx
  have hne : stripList l ≠ [] := by
    intro hnil
    rw [hnil] at hx
    simp at hx
  have hlast := List.rdropWhile_last_not pyIsSpace (l.dropWhile pyIsSpace) hne
  have hg := List.getLast?_eq_getLast (stripList l) hne
  rw [hg] at hx
  have hxeq : x = (stripList l).getLast hne := by
    injection hx with h2
    exact h2.symm
  rw [hxeq]
  exact Bool.not_eq_true _ |>.mp hlast

theorem stripList_eq_self (l : List Char)
    (h1 : ∀ x, l.head? = some x → pyIsSpace x = false)
    (h2 : ∀ x, l.getLast? = some x → pyIsSpace x = false) :
    stripList l = l := by
  cases l with
  | nil => rfl
  | cons c r =>
    have hc : pyIsSpace c = false := h1 c rfl
    unfold stripList
    rw [List.dropWhile_cons_of_neg (by simp [hc])]
    refine (List.rdropWhile_eq_self_iff).mpr ?_
    intro hl
    have hg := List.getLast?_eq_getLast (c :: r) hl
    have := h2 _ hg
    simp [this]

theorem stripList_subset (l : List Char) : stripList l ⊆ l := by
  intro x hx
  exact (List.dropWhile_sublist pyIsSpace).subset
    ((List.rdropWhile_prefix pyIsSpace (l.dropWhile pyIsSpace)).sublist.subset hx)

theorem mem_dropWhile_of_not_space (l : List Char) (x : Char) (hx : x ∈ l)
    (hns : pyIsSpace x = false) : x ∈ l.dropWhile pyIsSpace := by
  induction l with
  | nil => cases hx
  | cons a t ih =>
    by_cases ha : pyIsSpace a = true
    · rw [List.dropWhile_cons_of_pos ha]
      rcases List.mem_cons.mp hx with heq | hmem
      · rw [← heq, hns] at ha; cases ha
      · exact ih hmem
    · rw [List.dropWhile_cons_of_neg ha]
      exact hx

theorem mem_stripList_of_not_space (l : List Char) (x : Char) (hx : x ∈ l)
    (hns : pyIsSpace x = false) : x ∈ stripList l := by
  unfold stripList List.rdropWhile
  rw [List.mem_reverse]
  exact mem_dropWhile_of_not_space _ _
    (List.mem_reverse.mpr (mem_dropWhile_of_not_space _ _ hx hns)) hns

theorem stripList_length_le (l : List Char) : (stripList l).length ≤ l.length :=
  le_trans (List.rdropWhile_prefix pyIsSpace (l.dropWhile pyIsSpace)).sublist.length_le
    (List.dropWhile_sublist pyIsSpace).length_le


theorem string_ext {s t : String} (h : s.data = t.data) : s = t := by
  cases s
  cases t
  simp only at h
  rw [h]

theorem pyStrip_data (s : String) : (pyStrip s).data = stripList s.data := rfl

theorem pyCapitalize_of_data {u : String} {c : Char} {rest : List Char}
    (h : u.data = c :: rest) :
    pyCapitalize u = ⟨pyToUpper c :: rest.map pyToLower⟩ := by
  unfold pyCapitalize
  rw [h]

theorem pyLower_of_data {u : String} {c : Char} {rest : List Char}
    (h : u.data = c :: rest) :
    pyLower u = ⟨pyToLower c :: rest.map pyToLower⟩ := by
  unfold pyLower
  rw [h]
  rfl

theorem normalize_ok_elim {s t : String}
    (h : normalize_name (.str s) = .ok t) :
    ∃ c r, stripList s.data = c :: r ∧
      t.data = pyToUpper (pyToLower c) :: r.map pyToLower := by
  by_cases hs : pyStrip s = ""
  · simp [normalize_name, hs] at h
  · simp only [normalize_name, if_neg hs] at h
    cases hu : stripList s.data with
    | nil =>
        exact absurd (string_ext (by rw [pyStrip_data, hu])) hs
    | cons c r =>
        refine ⟨c, r, rfl, ?_⟩
        have hokt : pyCapitalize (pyLower (pyStrip s)) = t := by
          injection h
        rw [← hokt]
        have hlow : pyLower (pyStrip s) = ⟨pyToLower c :: r.map pyToLower⟩ :=
          pyLower_of_data (by rw [pyStrip_data, hu])
        rw [hlow, pyCapitalize_of_data (show (⟨pyToLower c :: r.map pyToLower⟩ : String).data = _ from rfl)]
        show pyToUpper (pyToLower c) :: (r.map pyToLower).map pyToLower = _
        rw [map_toLower_idem]

theorem normalize_fixed {s t : String}
    (h : normalize_name (.str s) = .ok t) :
    normalize_name (.str t) = .ok t := by
  obtain ⟨c, r, hu, ht⟩ := normalize_ok_elim h
  have hcns : pyIsSpace c = false := stripList_head_not_space s.data c r hu
  have hgns : pyIsSpace (pyToUpper (pyToLower c)) = false := by
    rw [isSpace_toUpper, isSpace_toLower]; exact hcns
  have hhead : ∀ x, t.data.head? = some x → pyIsSpace x = false := by
    intro x hx
    rw [ht] at hx
    simp at hx
    rw [← hx]
    exact hgns
  have hlastsrc := stripList_getLast_not_space s.data
  have hlast : ∀ x, t.data.getLast? = some x → pyIsSpace x = false := by
    intro x hx
    rw [ht] at hx
    cases r with
    | nil =>
        simp at hx
        rw [← hx]
        exact hgns
    | cons b rb =>
        rw [List.map_cons, List.getLast?_cons_cons, ← List.map_cons,
          List.getLast?_map] at hx
        rcases Option.map_eq_some'.mp hx with ⟨y, hy, hxy⟩
        have : pyIsSpace y = false := by
          apply hlastsrc y
          rw [hu, List.getLast?_cons_cons]
          exact hy
        rw [← hxy, isSpace_toLower]
        exact this
  have hstript : pyStrip t = t :=
    string_ext (by rw [pyStrip_data]; exact stripList_eq_self t.data hhead hlast)
  have htne : ¬ pyStrip t = "" := by
    rw [hstript]
    intro he
    rw [he] at ht
    simp at ht
  have hrecap : pyCapitalize (pyLower t) = t := by
    have hlow : pyLower t = ⟨pyToLower c :: r.map pyToLower⟩ := by
      have h1 : (pyLower t).data = pyToLower c :: r.map pyToLower := by
        rw [show (pyLower t).data = t.data.map pyToLower from rfl, ht]
        rw [List.map_cons, toLower_toUpper_toLower, map_toLower_idem]
      exact string_ext h1
    rw [hlow, pyCapitalize_of_data (show (⟨pyToLower c :: r.map pyToLower⟩ : String).data = _ from rfl)]
    apply string_ext
    show pyToUpper (pyToLower c) :: (r.map pyToLower).map pyToLower = t.data
    rw [map_toLower_idem, ht]
  rw [normalize_name]
  simp only [if_neg htne]
  rw [hstript, hrecap]


theorem except_bind_ok {ε α β : Type} (a : α) (f : α → Except ε β) :
    (Except.ok a : Except ε α) >>= f = f a := rfl

theorem except_bind_error {ε α β : Type} (e : ε) (f : α → Except ε β) :
    (Except.error e : Except ε α) >>= f = Except.error e := rfl

theorem except_bind_eq_ok {ε α β : Type} {x : Except ε α} {f : α → Except ε β}
    {b : β} (h : x >>= f = .ok b) : ∃ a, x = .ok a ∧ f a = .ok b := by
  cases x with
  | ok a => exact ⟨a, rfl, by rw [except_bind_ok] at h; exact h⟩
  | error e => rw [except_bind_error] at h; cases h

theorem string_length_data (s : String) : s.length = s.data.length := rfl

theorem validate_password_too_short {raw : String}
    (h : (pyStrip raw).length < 8) :
    validate_password (.str raw) =
      .error (.valueError "String should have at least 8 characters") := by
  simp [validate_password, h]

theorem not_space_of_digit (c : Char) (h : pyIsDigit c = true) :
    pyIsSpace c = false := by
  simp [pyIsDigit] at h
  rw [pyIsSpace_eq_decide]
  simp
  omega

theorem mem_specials_iff (c : Char) :
    SPECIALS.contains c = true ↔
      c = '!' ∨ c = '@' ∨ c = '#' ∨ c = '$' ∨ c = '%' ∨ c = '^' ∨
        c = '&' ∨ c = '*' := by
  simp [SPECIALS]

theorem not_space_of_special (c : Char) (h : SPECIALS.contains c = true) :
    pyIsSpace c = false := by
  rcases (mem_specials_iff c).mp h with h | h | h | h | h | h | h | h <;>
    rw [h] <;> decide

theorem validate_password_no_digit {raw : String}
    (hlen : 8 ≤ (pyStrip raw).length)
    (hdig : raw.data.any pyIsDigit = false) :
    validate_password (.str raw) =
      .error (.valueError "Password must contain at least one digit") := by
  have hnl : ¬ (pyStrip raw).length < 8 := by omega
  have hdig2 : (pyStrip raw).data.any pyIsDigit = false := by
    rw [pyStrip_data]
    by_contra hne
    rcases List.any_eq_true.mp (Bool.of_not_eq_false hne) with ⟨x, hx, hpx⟩
    have : x ∈ raw.data := stripList_subset raw.data hx
    have := List.any_eq_true.mpr ⟨x, this, hpx⟩
    rw [hdig] at this
    cases this
  simp [validate_password, hnl, hdig2]

theorem validate_password_no_special {raw : String}
    (hlen : 8 ≤ (pyStrip raw).length)
    (hdig : raw.data.any pyIsDigit = true)
    (hspec : raw.data.any (fun c => SPECIALS.contains c) = false) :
    validate_password (.str raw) =
      .error (.valueError "Password must contain at least one special char") := by
  have hnl : ¬ (pyStrip raw).length < 8 := by omega
  have hdig2 : (pyStrip raw).data.any pyIsDigit = true := by
    rw [pyStrip_data]
    rcases List.any_eq_true.mp hdig with ⟨x, hx, hpx⟩
    exact List.any_eq_true.mpr
      ⟨x, mem_stripList_of_not_space raw.data x hx (not_space_of_digit x hpx), hpx⟩
  have hspec2 : (pyStrip raw).data.any (fun c => SPECIALS.contains c) = false := by
    rw [pyStrip_data]
    by_contra hne
    rcases List.any_eq_true.mp (Bool.of_not_eq_false hne) with ⟨x, hx, hpx⟩
    have : x ∈ raw.data := stripList_subset raw.data hx
    have := List.any_eq_true.mpr ⟨x, this, hpx⟩
    rw [hspec] at this
    cases this
  simp [validate_password, hnl, hdig2]
  intro x hx
  have := List.any_eq_false.mp hspec2 x hx
  simpa using this

theorem validate_password_ok {raw : String}
    (hlen : 8 ≤ (pyStrip raw).length)
    (hdig : (pyStrip raw).data.any pyIsDigit = true)
    (hspec : (pyStrip raw).data.any (fun c => SPECIALS.contains c) = true) :
    validate_password (.str raw) = .ok (pyStrip raw) := by
  have hnl : ¬ (pyStrip raw).length < 8 := by omega
  simp [validate_password, hnl, hdig]
  rcases List.any_eq_true.mp hspec with ⟨x, hx, hpx⟩
  exact ⟨x, hx, by simpa using hpx⟩

theorem validate_password_ok_elim {v : Value} {p : String}
    (h : validate_password v = .ok p) :
    8 ≤ p.length ∧ p.data.any pyIsDigit = true ∧
      p.data.any (fun c => SPECIALS.contains c) = true ∧
      ∃ raw, v = .str raw ∧ p = pyStrip raw := by
  cases v with
  | str raw =>
      revert h
      simp only [validate_password]
      split_ifs with h1 h2 h3
      · intro h; cases h
      · intro h; cases h
      · intro h; cases h
      · intro h
        injection h with h
        rw [← h]
        refine ⟨by omega, ?_, ?_, raw, rfl, rfl⟩
        · simpa using h2
        · simpa using h3
  | int n => cases h
  | null => cases h


theorem validate_age_int_ok {n : Int} (h : 18 ≤ n) :
    validate_age (.int n) = .ok n := by
  simp [validate_age, h]

theorem validate_age_int_low {n : Int} (h : n < 18) :
    validate_age (.int n) =
      .error (.valueError "Input should be greater than or equal to 18") := by
  have : ¬ 18 ≤ n := by omega
  simp [validate_age, this]

theorem validate_age_ok_elim {v : Value} {n : Int}
    (h : validate_age v = .ok n) : 18 ≤ n := by
  cases v with
  | int m =>
      revert h
      simp only [validate_age]
      split_ifs with h1
      · intro h
        injection h with h
        rw [← h]
        exact h1
      · intro h; cases h
  | str s =>
      revert h
      simp only [validate_age]
      cases laxStrToInt s with
      | none => intro h; cases h
      | some m =>
          simp only
          split_ifs with h1
          · intro h
            injection h with h
            rw [← h]
            exact h1
          · intro h; cases h
  | null => cases h

theorem validate_role_ok_elim {v : Value} {r : String}
    (h : validate_role v = .ok r) : r = "admin" ∨ r = "superadmin" := by
  cases v with
  | str s =>
      revert h
      simp only [validate_role]
      split_ifs with h1
      · intro h
        injection h with h
        rw [← h]
        exact h1
      · intro h; cases h
  | int n => cases h
  | null => cases h

theorem validate_role_ok_iff (v : Value) :
    (∃ r, validate_role v = .ok r) ↔
      (v = .str "admin" ∨ v = .str "superadmin") := by
  constructor
  · rintro ⟨r, hr⟩
    cases v with
    | str s =>
        revert hr
        simp only [validate_role]
        split_ifs with h1
        · intro _
          rcases h1 with h | h <;> rw [h]
          · exact Or.inl rfl
          · exact Or.inr rfl
        · intro h; cases h
    | int n => cases hr
    | null => cases hr
  · rintro (h | h) <;> rw [h]
    · exact ⟨"admin", by decide⟩
    · exact ⟨"superadmin", by decide⟩

theorem validate_email_ok_elim {s t : String}
    (h : validate_email (.str s) = .ok t) :
    t = pyStrip s ∧ emailOk (pyStrip s) = true := by
  revert h
  simp only [validate_email]
  split_ifs with h1
  · intro h
    injection h with h
    exact ⟨h.symm, h1⟩
  · intro h; cases h

theorem mkUser_eq_of_parts {e f l p a : Value} {e2 f2 l2 p2 : String} {n : Int}
    (he : validate_email e = .ok e2) (hf : normalize_name f = .ok f2)
    (hl : normalize_name l = .ok l2) (hp : validate_password p = .ok p2)
    (ha : validate_age a = .ok n) :
    mkUser e f l p a = .ok ⟨⟨e2, f2, l2⟩, p2, n⟩ := by
  unfold mkUser mkBaseUser
  rw [he, except_bind_ok, hf, except_bind_ok, hl, except_bind_ok]
  rw [show (pure ⟨e2, f2, l2⟩ : Except Err BaseUser) = .ok ⟨e2, f2, l2⟩ from rfl]
  rw [except_bind_ok, hp, except_bind_ok, ha, except_bind_ok]
  rfl

theorem mkUser_ok_elim {e f l p a : Value} {u : User}
    (h : mkUser e f l p a = .ok u) :
    validate_email e = .ok u.email ∧ normalize_name f = .ok u.first_name ∧
      normalize_name l = .ok u.last_name ∧
      validate_password p = .ok u.password ∧ validate_age a = .ok u.age := by
  unfold mkUser at h
  rcases except_bind_eq_ok h with ⟨b, hb, h2⟩
  rcases except_bind_eq_ok h2 with ⟨p2, hp, h3⟩
  rcases except_bind_eq_ok h3 with ⟨a2, ha, h4⟩
  unfold mkBaseUser at hb
  rcases except_bind_eq_ok hb with ⟨e2, he, hb2⟩
  rcases except_bind_eq_ok hb2 with ⟨f2, hf, hb3⟩
  rcases except_bind_eq_ok hb3 with ⟨l2, hl, hb4⟩
  have hbeq : b = ⟨e2, f2, l2⟩ := by
    injection hb4 with h5
    exact h5.symm
  have hueq : u = ⟨b, p2, a2⟩ := by
    injection h4 with h5
    exact h5.symm
  rw [hueq, hbeq]
  exact ⟨he, hf, hl, hp, ha⟩

theorem mkUser_error_age {e f l p a : Value} {e2 f2 l2 p2 : String} {err : Err}
    (he : validate_email e = .ok e2) (hf : normalize_name f = .ok f2)
    (hl : normalize_name l = .ok l2) (hp : validate_password p = .ok p2)
    (ha : validate_age a = .error err) :
    mkUser e f l p a = .error err := by
  unfold mkUser mkBaseUser
  rw [he, except_bind_ok, hf, except_bind_ok, hl, except_bind_ok]
  rw [show (pure ⟨e2, f2, l2⟩ : Except Err BaseUser) = .ok ⟨e2, f2, l2⟩ from rfl]
  rw [except_bind_ok, hp, except_bind_ok, ha, except_bind_error]

theorem mkAdminUser_eq_of_parts {e f l p a r : Value} {u : User} {r2 : String}
    (hu : mkUser e f l p a = .ok u) (hr : validate_role r = .ok r2) :
    mkAdminUser e f l p a r = .ok ⟨u, r2⟩ := by
  unfold mkAdminUser
  rw [hu, except_bind_ok, hr, except_bind_ok]
  rfl

theorem mkAdminUser_error_role {e f l p a r : Value} {u : User} {err : Err}
    (hu : mkUser e f l p a = .ok u) (hr : validate_role r = .error err) :
    mkAdminUser e f l p a r = .error err := by
  unfold mkAdminUser
  rw [hu, except_bind_ok, hr, except_bind_error]

theorem mkAdminUser_ok_elim {e f l p a r : Value} {x : AdminUser}
    (h : mkAdminUser e f l p a r = .ok x) :
    mkUser e f l p a = .ok x.toUser ∧ validate_role r = .ok x.role := by
  unfold mkAdminUser at h
  rcases except_bind_eq_ok h with ⟨u, hu, h2⟩
  rcases except_bind_eq_ok h2 with ⟨r2, hr, h3⟩
  have hxeq : x = ⟨u, r2⟩ := by
    injection h3 with h4
    exact h4.symm
  rw [hxeq]
  exact ⟨hu, hr⟩


theorem except_map_eq_ok {ε α β : Type} {x : Except ε α} {f : α → β} {b : β}
    (h : x.map f = .ok b) : ∃ a, x = .ok a ∧ f a = b := by
  cases x with
  | ok a =>
      refine ⟨a, rfl, ?_⟩
      injection h
  | error e => cases h

theorem normalize_ok_strip_ne {s t : String}
    (h : normalize_name (.str s) = .ok t) : pyStrip s ≠ "" := by
  intro he
  simp [normalize_name, he] at h

theorem nameOk_of_normalize {v : Value} {t : String}
    (h : normalize_name v = .ok t) : NameOk t := by
  cases v with
  | str s =>
      have hfix := normalize_fixed h
      exact ⟨normalize_ok_strip_ne hfix, hfix⟩
  | int n => cases h
  | null => cases h

theorem passwordOk_of_validate {v : Value} {p : String}
    (h : validate_password v = .ok p) : PasswordOk p := by
  rcases validate_password_ok_elim h with ⟨h1, h2, h3, _⟩
  exact ⟨h1, h2, h3⟩

theorem mkUser_ok_inv {e f l p a : Value} {u : User}
    (h : mkUser e f l p a = .ok u) : UserInv u := by
  rcases mkUser_ok_elim h with ⟨he, hf, hl, hp, ha⟩
  exact ⟨nameOk_of_normalize hf, nameOk_of_normalize hl,
    passwordOk_of_validate hp, validate_age_ok_elim ha⟩

theorem applyUpdate_ok_inv {u : User} {f : FieldUpdate} {u2 : User}
    (hInv : UserInv u) (h : applyUpdate u f = .ok u2) : UserInv u2 := by
  obtain ⟨hfn, hln, hpw, hage⟩ := hInv
  cases f with
  | email v =>
      rcases except_map_eq_ok h with ⟨e2, he, heq⟩
      rw [← heq]
      exact ⟨hfn, hln, hpw, hage⟩
  | first_name v =>
      rcases except_map_eq_ok h with ⟨f2, hf, heq⟩
      rw [← heq]
      exact ⟨nameOk_of_normalize hf, hln, hpw, hage⟩
  | last_name v =>
      rcases except_map_eq_ok h with ⟨l2, hl, heq⟩
      rw [← heq]
      exact ⟨hfn, nameOk_of_normalize hl, hpw, hage⟩
  | password v =>
      rcases except_map_eq_ok h with ⟨p2, hp, heq⟩
      rw [← heq]
      exact ⟨hfn, hln, passwordOk_of_validate hp, hage⟩
  | age v =>
      rcases except_map_eq_ok h with ⟨a2, ha, heq⟩
      rw [← heq]
      exact ⟨hfn, hln, hpw, validate_age_ok_elim ha⟩

theorem mkAdminUser_ok_inv {e f l p a r : Value} {x : AdminUser}
    (h : mkAdminUser e f l p a r = .ok x) : AdminInv x := by
  rcases mkAdminUser_ok_elim h with ⟨hu, hr⟩
  exact ⟨mkUser_ok_inv hu, validate_role_ok_elim hr⟩

theorem applyAdminUpdate_ok_inv {x : AdminUser} {f : AdminFieldUpdate}
    {x2 : AdminUser} (hInv : AdminInv x) (h : applyAdminUpdate x f = .ok x2) :
    AdminInv x2 := by
  obtain ⟨hu, hrole⟩ := hInv
  cases f with
  | base g =>
      rcases except_map_eq_ok h with ⟨u2, hu2, heq⟩
      rw [← heq]
      exact ⟨applyUpdate_ok_inv hu hu2, hrole⟩
  | role v =>
      rcases except_map_eq_ok h with ⟨r2, hr, heq⟩
      rw [← heq]
      exact ⟨hu, validate_role_ok_elim hr⟩


theorem capitalize_lower_eq_spec (s : String) :
    pyCapitalize (pyLower s) = firstUpperRestLower s := by
  cases hd : s.data with
  | nil =>
      have hl : (pyLower s).data = [] := by
        rw [show (pyLower s).data = s.data.map pyToLower from rfl, hd]
        rfl
      unfold pyCapitalize firstUpperRestLower
      rw [hl]
  | cons c rest =>
      have hl : (pyLower s).data = pyToLower c :: rest.map pyToLower := by
        rw [show (pyLower s).data = s.data.map pyToLower from rfl, hd]
        rfl
      rw [pyCapitalize_of_data hl]
      unfold firstUpperRestLower
      rw [hl, map_toLower_idem]

/-- C1, counterexample: the password " 1!aaaaa" has length 8, contains a
digit and contains a special character, yet `User` construction fails,
because `str_strip_whitespace=True` strips the leading space before
`Field(min_length=8)` is checked.  This refutes C1 as stated ("for every
password string p with length >= 8 ... construction succeeds and the stored
password equals p unchanged"). -/
theorem c1_counterexample :
    (" 1!aaaaa" : String).length = 8 ∧
    (" 1!aaaaa" : String).data.any pyIsDigit = true ∧
    (" 1!aaaaa" : String).data.any (fun c => SPECIALS.contains c) = true ∧
    mkUser (.str "a@b.com") (.str "Иван") (.str "Петров") (.str " 1!aaaaa")
        (.int 25) =
      .error (.valueError "String should have at least 8 characters") := by
  decide

/-- C1, amended: for every password string p whose value after stripping
leading/trailing whitespace has length >= 8, contains at least one decimal
digit and at least one character from SPECIALS (all other fields being
valid), `User` construction succeeds and the stored password equals p with
its leading/trailing whitespace stripped — in particular equals p unchanged
whenever p has none; interior characters and case are preserved. -/
theorem c1_password_stored_stripped (p : String) (e f l a : Value)
    (e2 f2 l2 : String) (n : Int) (_hm : ModelledStr p)
    (hlen : 8 ≤ (pyStrip p).length)
    (hdig : (pyStrip p).data.any pyIsDigit = true)
    (hspec : (pyStrip p).data.any (fun c => SPECIALS.contains c) = true)
    (he : validate_email e = .ok e2) (hf : normalize_name f = .ok f2)
    (hl : normalize_name l = .ok l2) (ha : validate_age a = .ok n) :
    mkUser e f l (.str p) a = .ok ⟨⟨e2, f2, l2⟩, pyStrip p, n⟩ :=
  mkUser_eq_of_parts he hf hl (validate_password_ok hlen hdig hspec) ha

/-- C1, witness: the amended theorem applied at a concrete padded password. -/
theorem c1_witness :
    mkUser (.str "a@b.com") (.str "Иван") (.str "Петров")
      (.str "  a1!aaaaaa  ") (.int 25) =
      .ok ⟨⟨"a@b.com", "Иван", "Петров"⟩, "a1!aaaaaa", 25⟩ := by
  have h := c1_password_stored_stripped "  a1!aaaaaa  " (.str "a@b.com")
    (.str "Иван") (.str "Петров") (.int 25) "a@b.com" "Иван" "Петров" 25
    (by decide) (by decide) (by decide) (by decide) (by decide) (by decide)
    (by decide) (by decide)
  have hs : pyStrip "  a1!aaaaaa  " = "a1!aaaaaa" := by decide
  rw [hs] at h
  exact h

/-- C2: invalid passwords fail with the advertised per-rule errors: a
too-short password fails with the "at least 8 characters" error; a password
whose stripped value has length >= 8 but contains no decimal digit fails
with the "missing digit" error; one with a digit but no character of
SPECIALS fails with the "missing special char" error.  Each rule is
independently violable, as the three concrete `mkUser` scenarios (one per
rule, taken from the repository's tests) show. -/
theorem c2_password_error_taxonomy :
    (∀ p : String, ModelledStr p → p.length < 8 →
      validate_password (.str p) =
        .error (.valueError "String should have at least 8 characters")) ∧
    (∀ p : String, ModelledStr p → 8 ≤ (pyStrip p).length →
      p.data.any pyIsDigit = false →
      validate_password (.str p) =
        .error (.valueError "Password must contain at least one digit")) ∧
    (∀ p : String, ModelledStr p → 8 ≤ (pyStrip p).length →
      p.data.any pyIsDigit = true →
      p.data.any (fun c => SPECIALS.contains c) = false →
      validate_password (.str p) =
        .error (.valueError "Password must contain at least one special char")) ∧
    mkUser (.str "a@b.com") (.str "Иван") (.str "Петров") (.str "short1!")
        (.int 25) =
      .error (.valueError "String should have at least 8 characters") ∧
    mkUser (.str "a@b.com") (.str "Иван") (.str "Петров") (.str "!!!!@@@@")
        (.int 25) =
      .error (.valueError "Password must contain at least one digit") ∧
    mkUser (.str "a@b.com") (.str "Иван") (.str "Петров")
        (.str "longbutnospecial1") (.int 25) =
      .error (.valueError "Password must contain at least one special char") := by
  refine ⟨?_, ?_, ?_, by decide, by decide, by decide⟩
  · intro p _ h
    have h2 : (pyStrip p).length ≤ p.length := by
      rw [string_length_data, string_length_data, pyStrip_data]
      exact stripList_length_le p.data
    exact validate_password_too_short (by omega)
  · intro p _ h1 h2
    exact validate_password_no_digit h1 h2
  · intro p _ h1 h2 h3
    exact validate_password_no_special h1 h2 h3

/-- C2, witness: the spec's scenario password "!!!!@@@@" yields the
missing-digit error. -/
theorem c2_witness :
    validate_password (.str "!!!!@@@@") =
      .error (.valueError "Password must contain at least one digit") :=
  c2_password_error_taxonomy.2.1 "!!!!@@@@" (by decide) (by decide) (by decide)

/-- C3: name normalization — a non-string value fails with a
TypeError-kind error; a string whose trim is empty fails with the
ValueError-kind "must not be empty" error; otherwise the stored value is
the trimmed string lower-cased with only its first character upper-cased
(`firstUpperRestLower`, the spec's wording, shown equal to the code's
`lower().capitalize()`); the same pipeline runs on every reassignment; and
"ВаСЯ" is stored as "Вася". -/
theorem c3_name_rule :
    (∀ n : Int, normalize_name (.int n) =
      .error (.typeError "Name must be a string")) ∧
    (normalize_name .null = .error (.typeError "Name must be a string")) ∧
    (∀ s : String, ModelledStr s → pyStrip s = "" →
      normalize_name (.str s) = .error (.valueError "Name must not be empty")) ∧
    (∀ s : String, ModelledStr s → pyStrip s ≠ "" →
      normalize_name (.str s) = .ok (firstUpperRestLower (pyStrip s))) ∧
    (∀ (u : User) (v : Value), applyUpdate u (.first_name v) =
      (normalize_name v).map fun x => { u with first_name := x }) ∧
    (∀ (u : User) (v : Value), applyUpdate u (.last_name v) =
      (normalize_name v).map fun x => { u with last_name := x }) ∧
    normalize_name (.str "ВаСЯ") = .ok "Вася" := by
  refine ⟨fun n => rfl, rfl, ?_, ?_, fun u v => rfl, fun u v => rfl, by decide⟩
  · intro s _ h
    simp [normalize_name, h]
  · intro s _ h
    simp [normalize_name, h, capitalize_lower_eq_spec]

/-- C3, witness: the normalization theorem applied at a concrete padded
Cyrillic name. -/
theorem c3_witness :
    normalize_name (.str "  ВаСЯ  ") = .ok (firstUpperRestLower "ВаСЯ") := by
  have h := c3_name_rule.2.2.2.1 "  ВаСЯ  " (by decide) (by decide)
  have hs : pyStrip "  ВаСЯ  " = "ВаСЯ" := by decide
  rw [hs] at h
  exact h

/-- C4: `has_permission` is a total Boolean function on the record and the
permission string: for role "superadmin" it returns true for every string,
and for role "admin" it returns true exactly for the five members of
ADMIN_PERMISSIONS. -/
theorem c4_has_permission (a : AdminUser) (x : String) :
    (a.role = "superadmin" → has_permission a x = true) ∧
    (a.role = "admin" →
      (has_permission a x = true ↔
        (x = "read" ∨ x = "write" ∨ x = "delete" ∨ x = "view_reports" ∨
          x = "manage_users"))) := by
  constructor
  · intro h
    simp [has_permission, h]
  · intro h
    have hne : ¬ a.role = "superadmin" := by
      rw [h]
      decide
    simp [has_permission, hne, ADMIN_PERMISSIONS]

/-- C4, witness: the permission theorem applied at a concrete admin
record, one known and one unknown permission. -/
theorem c4_witness :
    has_permission ⟨⟨⟨"a@b.com", "Иван", "Петров"⟩, "Abcdef1!", 33⟩, "admin"⟩
        "write" = true ∧
    has_permission ⟨⟨⟨"a@b.com", "Иван", "Петров"⟩, "Abcdef1!", 33⟩, "admin"⟩
        "manage_roles" = false := by
  constructor
  · exact ((c4_has_permission _ "write").2 rfl).mpr (Or.inr (Or.inl rfl))
  · have h := (c4_has_permission
      ⟨⟨⟨"a@b.com", "Иван", "Петров"⟩, "Abcdef1!", 33⟩, "admin"⟩
      "manage_roles").2 rfl
    have hno : ¬("manage_roles" = "read" ∨ "manage_roles" = "write" ∨
        "manage_roles" = "delete" ∨ "manage_roles" = "view_reports" ∨
        "manage_roles" = "manage_users") := by decide
    exact Bool.eq_false_iff.mpr fun htrue => hno (h.mp htrue)


/-- C5: `AdminUser` construction accepts exactly the role strings "admin"
and "superadmin": given any otherwise-valid field values, construction
succeeds iff the role value is one of those two strings, and the concrete
near-matches "administrator" and "" are rejected with a validation error. -/
theorem c5_role_enumeration :
    (∀ v : Value, (∃ r, validate_role v = .ok r) ↔
      (v = .str "admin" ∨ v = .str "superadmin")) ∧
    (∀ (e f l p a : Value) (u : User), mkUser e f l p a = .ok u →
      ∀ rv : Value, ((∃ x, mkAdminUser e f l p a rv = .ok x) ↔
        (rv = .str "admin" ∨ rv = .str "superadmin"))) ∧
    mkAdminUser (.str "a@b.com") (.str "Иван") (.str "Петров")
        (.str "Abcdef1!") (.int 33) (.str "administrator") =
      .error (.valueError "Input should be admin or superadmin") ∧
    mkAdminUser (.str "a@b.com") (.str "Иван") (.str "Петров")
        (.str "Abcdef1!") (.int 33) (.str "") =
      .error (.valueError "Input should be admin or superadmin") := by
  refine ⟨validate_role_ok_iff, ?_, by decide, by decide⟩
  intro e f l p a u hu rv
  constructor
  · rintro ⟨x, hx⟩
    rcases mkAdminUser_ok_elim hx with ⟨_, hr⟩
    exact (validate_role_ok_iff rv).mp ⟨x.role, hr⟩
  · intro h
    rcases (validate_role_ok_iff rv).mpr h with ⟨r2, hr⟩
    exact ⟨⟨u, r2⟩, mkAdminUser_eq_of_parts hu hr⟩

/-- C5, witness: the enumeration theorem applied at concrete roles. -/
theorem c5_witness :
    (∃ x, mkAdminUser (.str "a@b.com") (.str "Иван") (.str "Петров")
      (.str "Abcdef1!") (.int 33) (.str "superadmin") = .ok x) ∧
    ¬(∃ x, mkAdminUser (.str "a@b.com") (.str "Иван") (.str "Петров")
      (.str "Abcdef1!") (.int 33) (.str "administrator") = .ok x) := by
  have h := c5_role_enumeration.2.1 (.str "a@b.com") (.str "Иван")
    (.str "Петров") (.str "Abcdef1!") (.int 33)
    ⟨⟨"a@b.com", "Иван", "Петров"⟩, "Abcdef1!", 33⟩ (by decide)
  constructor
  · exact (h (.str "superadmin")).mpr (Or.inr rfl)
  · intro hex
    rcases (h (.str "administrator")).mp hex with hc | hc <;>
      exact absurd hc (by decide)

/-- C6, counterexample: the string "25" is not an integer, yet `User`
construction with age "25" succeeds and stores the integer 25 — pydantic's
lax mode coerces integer-valued strings (verified against pydantic 2.10.6).
This refutes C6's clause "a value that is not an integer fails rather than
being accepted". -/
theorem c6_counterexample :
    mkUser (.str "a@b.com") (.str "Иван") (.str "Петров") (.str "Abcdef1!")
        (.str "25") =
      .ok ⟨⟨"a@b.com", "Иван", "Петров"⟩, "Abcdef1!", 25⟩ := by
  decide

/-- C6, amended: the age field must be an integer >= 18 — for every
integer a < 18 construction fails with the ge-18 error, for every a >= 18
it succeeds with a stored (no upper bound); a non-numeric value fails, but
a value that pydantic's lax rules coerce to an integer (such as the string
"25") is accepted as that integer rather than rejected. -/
theorem c6_age_rule :
    (∀ (e f l p : Value) (u : User), mkUser e f l p (.int 18) = .ok u →
      ∀ n : Int,
        (18 ≤ n →
          mkUser e f l p (.int n) = .ok ⟨u.toBaseUser, u.password, n⟩) ∧
        (n < 18 → mkUser e f l p (.int n) =
          .error (.valueError "Input should be greater than or equal to 18"))) ∧
    (∀ n : Int, 18 ≤ n → validate_age (.int n) = .ok n) ∧
    (∀ n : Int, n < 18 → validate_age (.int n) =
      .error (.valueError "Input should be greater than or equal to 18")) ∧
    (validate_age .null = .error (.typeError "Input should be a valid integer")) ∧
    (validate_age (.str "abc") = .error (.valueError
      "Input should be a valid integer, unable to parse string as an integer")) ∧
    (∀ (s : String) (n : Int), laxStrToInt s = Option.some n →
      validate_age (.str s) = (if 18 ≤ n then .ok n else .error (.valueError
        "Input should be greater than or equal to 18"))) := by
  refine ⟨?_, fun n h => validate_age_int_ok h, fun n h => validate_age_int_low h,
    rfl, by decide, ?_⟩
  · intro e f l p u hu n
    rcases mkUser_ok_elim hu with ⟨he, hf, hl, hp, _⟩
    constructor
    · intro hn
      exact mkUser_eq_of_parts he hf hl hp (validate_age_int_ok hn)
    · intro hn
      exact mkUser_error_age he hf hl hp (validate_age_int_low hn)
  · intro s n h
    simp [validate_age, h]

/-- C6, witness: the amended age theorem applied at a concrete large age. -/
theorem c6_age_rule_witness :
    mkUser (.str "a@b.com") (.str "Иван") (.str "Петров") (.str "Abcdef1!")
        (.int 99) =
      .ok ⟨⟨"a@b.com", "Иван", "Петров"⟩, "Abcdef1!", 99⟩ := by
  have h := (c6_age_rule.1 (.str "a@b.com") (.str "Иван") (.str "Петров")
    (.str "Abcdef1!") ⟨⟨"a@b.com", "Иван", "Петров"⟩, "Abcdef1!", 18⟩
    (by decide) 99).1 (by omega)
  exact h

/-- C7: a failed assignment is atomic — whenever a field update fails
validation, the observable outcome is the untouched prior record paired
with the error; in particular reassigning age := 17 on any record fails
with the ge-18 error and leaves the record unchanged; and a failed
construction yields no record. -/
theorem c7_assignment_atomicity :
    (∀ (u : User) (f : FieldUpdate) (er : Err),
      applyUpdate u f = .error er → attemptUpdate u f = (u, Option.some er)) ∧
    (∀ u : User, attemptUpdate u (.age (.int 17)) =
      (u, Option.some (.valueError "Input should be greater than or equal to 18"))) ∧
    (∀ (e f l p a : Value) (er : Err), mkUser e f l p a = .error er →
      ∀ u : User, ¬ mkUser e f l p a = .ok u) := by
  refine ⟨?_, ?_, ?_⟩
  · intro u f er h
    unfold attemptUpdate
    rw [h]
  · intro u
    have h : applyUpdate u (.age (.int 17)) =
        .error (.valueError "Input should be greater than or equal to 18") := by
      show (validate_age (.int 17)).map (fun a => { u with age := a }) = _
      rw [validate_age_int_low (by omega)]
      rfl
    unfold attemptUpdate
    rw [h]
  · intro e f l p a er h u hok
    rw [h] at hok
    cases hok

/-- C7, witness: the atomicity theorem applied at a concrete record. -/
theorem c7_witness :
    attemptUpdate ⟨⟨"a@b.com", "Иван", "Петров"⟩, "Abcdef1!", 25⟩
        (.age (.int 17)) =
      (⟨⟨"a@b.com", "Иван", "Петров"⟩, "Abcdef1!", 25⟩,
        Option.some (.valueError "Input should be greater than or equal to 18")) :=
  c7_assignment_atomicity.1 ⟨⟨"a@b.com", "Иван", "Петров"⟩, "Abcdef1!", 25⟩
    (.age (.int 17)) _ (by decide)

/-- C8: name normalization is idempotent — whenever normalization of s
succeeds with result t, normalizing t succeeds and returns t again. -/
theorem c8_normalize_idempotent (s t : String) (_hm : ModelledStr s)
    (h : normalize_name (.str s) = .ok t) :
    normalize_name (.str t) = .ok t :=
  normalize_fixed h

/-- C8, witness: idempotence at the concrete name "ВаСЯ". -/
theorem c8_witness :
    normalize_name (.str "ВаСЯ") = .ok "Вася" ∧
    normalize_name (.str "Вася") = .ok "Вася" :=
  ⟨by decide, c8_normalize_idempotent "ВаСЯ" "Вася" (by decide) (by decide)⟩

/-- C9: the email field accepts exactly the strings matching the
spec-modelled grammar `emailOk` (local part, "@", domain containing a dot,
neither part empty, no invalid characters) after trimming, stores the
trimmed input with no further normalization (case preserved), and rejects
everything else with a validation error. -/
theorem c9_email_rule :
    (∀ s : String, emailOk (pyStrip s) = true →
      validate_email (.str s) = .ok (pyStrip s)) ∧
    (∀ s : String, emailOk (pyStrip s) = false →
      validate_email (.str s) =
        .error (.valueError "value is not a valid email address")) ∧
    (∀ s t : String, validate_email (.str s) = .ok t → t = pyStrip s) ∧
    validate_email (.str "a@b.com") = .ok "a@b.com" ∧
    validate_email (.str " User@Example.com ") = .ok "User@Example.com" ∧
    validate_email (.str "a@b") =
      .error (.valueError "value is not a valid email address") ∧
    validate_email (.str "@domain.com") =
      .error (.valueError "value is not a valid email address") ∧
    validate_email (.str "user@") =
      .error (.valueError "value is not a valid email address") ∧
    validate_email (.str "not-an-email") =
      .error (.valueError "value is not a valid email address") := by
  refine ⟨?_, ?_, ?_, by decide, by decide, by decide, by decide, by decide,
    by decide⟩
  · intro s h
    simp [validate_email, h]
  · intro s h
    simp [validate_email, h]
  · intro s t h
    exact (validate_email_ok_elim h).1

/-- C9, witness: the email theorem applied at a concrete mixed-case
address with surrounding whitespace. -/
theorem c9_witness :
    validate_email (.str " User@Example.com ") = .ok (pyStrip " User@Example.com ") :=
  c9_email_rule.1 " User@Example.com " (by decide)

/-- C10: every record observable after a successful construction followed
by any sequence of successful field reassignments satisfies all field
constraints: both names are non-empty after trimming and stored in
normalized form, the password satisfies the length/digit/special rules,
the age is >= 18, and an `AdminUser` role lies in the closed
enumeration. -/
theorem c10_reachable_invariant :
    (∀ u : User, ReachableUser u → UserInv u) ∧
    (∀ x : AdminUser, ReachableAdmin x → AdminInv x) := by
  constructor
  · intro u hr
    induction hr with
    | constructed e f l p a u h => exact mkUser_ok_inv h
    | assigned u f u2 _ h ih => exact applyUpdate_ok_inv ih h
  · intro x hr
    induction hr with
    | constructed e f l p a r x h => exact mkAdminUser_ok_inv h
    | assigned x f x2 _ h ih => exact applyAdminUpdate_ok_inv ih h

/-- C10, witness: the invariant theorem applied at concretely constructed
records. -/
theorem c10_witness :
    UserInv ⟨⟨"a@b.com", "Иван", "Петров"⟩, "Abcdef1!", 25⟩ ∧
    AdminInv ⟨⟨⟨"a@b.com", "Иван", "Петров"⟩, "Abcdef1!", 33⟩, "admin"⟩ :=
  ⟨c10_reachable_invariant.1 _
      (ReachableUser.constructed (.str "a@b.com") (.str "Иван") (.str "Петров")
        (.str "Abcdef1!") (.int 25) _ (by decide)),
    c10_reachable_invariant.2 _
      (ReachableAdmin.constructed (.str "a@b.com") (.str "Иван") (.str "Петров")
        (.str "Abcdef1!") (.int 33) (.str "admin") _ (by decide))⟩

end UserModels
